import Mathlib

/-!
Shallow embedding of the task-orchestration engine of the supergrok-cli
repository (src/orchestration/super-agent.ts, sub-agent.ts,
account-manager.ts) and proofs of the spec claims about it.

Conventions of the embedding:
* machine numbers: token counts and priorities are Nat, monetary costs are
  Rat (the source uses JS numbers; all arithmetic the claims touch is exact),
  wall-clock times and timestamps are Int (values of Date.now()).
* external collaborators (the HTTP client client.chat, the JS builtin
  JSON.parse, the persistence database) are not code of this repository;
  their outcomes are case-analysed as explicit inputs (ChatOutcome,
  DecompOutcome, SynthOutcome).  Database calls are fire-and-forget
  notifications that never influence a return value and are omitted.
* the try/catch structure of the source becomes case analysis: a caught
  exception is an explicit constructor, an uncaught one an explicit
  "unexpected" input at the one boundary (executeTask) that catches all.
-/

namespace SuperGrok

/-- Complexity hint of a task or subtask ('simple' | 'medium' | 'complex'). -/
inductive Complexity where
| simple
| medium
| complex
deriving DecidableEq, Repr

/-- Task interface of super-agent.ts (id, description, optional context,
complexity, priority). -/
structure Task where
  id : String
  description : String
  context : Option String
  complexity : Complexity
  priority : Nat
deriving DecidableEq, Repr

/-- SubAgentTask interface of sub-agent.ts. -/
structure SubAgentTask where
  id : String
  description : String
  priority : Nat
  parentTaskId : String
  complexity : Complexity
  context : Option String
deriving DecidableEq, Repr

/-- Account identifiers: the AccountManager constructor installs exactly the
two accounts 'account1' and 'account2'. -/
inductive AccountId where
| account1
| account2
deriving DecidableEq, Repr

/-- SubAgentResult interface of sub-agent.ts (the WorkerResult of the spec). -/
structure SubAgentResult where
  taskId : String
  success : Bool
  result : String
  tokensUsed : Nat
  cost : Rat
  account : AccountId
  duration : Int
  error : Option String
deriving DecidableEq, Repr

/-- TaskResult interface of super-agent.ts. -/
structure TaskResult where
  taskId : String
  success : Bool
  result : String
  subResults : List SubAgentResult
  tokensUsed : Nat
  cost : Rat
  duration : Int
deriving DecidableEq, Repr

/-- SuperAgentConfig interface of super-agent.ts. -/
inductive ExecStrategy where
| parallel
| sequential
| adaptive
deriving DecidableEq, Repr

structure SuperAgentConfig where
  maxSubAgents : Nat
  strategy : ExecStrategy
  saveHistory : Bool
deriving DecidableEq, Repr

/-- JavaScript (s || d) on an optional string: undefined and the empty string
are falsy and give the default. -/
def jsOrString (s : Option String) (d : String) : String :=
  match s with
  | some t => if t = "" then d else t
  | none => d

/-- One entry of the JSON array returned by the decomposition call.  Fields
absent from the JSON are none; a priority of 0 is also falsy in the source
expression (st.priority || index + 1) and is handled in decomposeTask. -/
structure RawSubtask where
  description : String
  priority : Option Nat
  estimatedComplexity : Option Complexity
deriving DecidableEq, Repr

/-- Outcome of the decomposition backend call as seen at the parse site in
SuperAgent.decomposeTask: the chat call threw (backendError), JSON.parse of
the content threw (unparsable), the parsed value has no .map method, so
mapping threw (nonArray), or a JS array of entries was obtained (entries;
content missing from the response defaults to the string of an empty array
and lands here as entries []). -/
inductive DecompOutcome where
| backendError
| unparsable
| nonArray
| entries (l : List RawSubtask)
deriving DecidableEq, Repr

/-- SuperAgent.decomposeTask, super-agent.ts lines 155-218, as a function of
the parse-site outcome.  On entries, each element is mapped to a SubAgentTask
(priority defaults to index+1 when absent or 0, complexity to medium); every
other outcome lands in the catch block, which returns the single fallback
subtask copying the task with priority 1.  The uuidv4() id supply is
abstracted as fresh; the accounting side effect (completeRequest) on the
success path does not influence the returned list and is modelled with the
AccountManager state below. -/
def decomposeTask (fresh : Nat → String) (task : Task) (o : DecompOutcome) :
    List SubAgentTask :=
  match o with
  | .entries l =>
      l.enum.map (fun p =>
        { id := fresh p.1
          description := p.2.description
          priority :=
            match p.2.priority with
            | some k => if k = 0 then p.1 + 1 else k
            | none => p.1 + 1
          parentTaskId := task.id
          complexity := p.2.estimatedComplexity.getD Complexity.medium
          context := none })
  | _ =>
      [{ id := fresh 0
         description := task.description
         priority := 1
         parentTaskId := task.id
         complexity := task.complexity
         context := none }]

/-- AccountConfig interface of account-manager.ts. -/
structure AccountConfig where
  apiKey : String
  baseURL : Option String
  name : String
  maxConcurrent : Nat
  rateLimit : Nat
deriving DecidableEq, Repr

/-- Live state of one account: its config together with the AccountStats
record and the sliding-window request timestamps of account-manager.ts.
activeRequests is an Int so that non-negativity is a theorem, not a typing
artifact. -/
structure AccountState where
  config : AccountConfig
  totalRequests : Nat
  totalTokens : Nat
  totalCost : Rat
  activeRequests : Int
  lastUsed : Int
  requestTimestamps : List Int
deriving DecidableEq, Repr

/-- Load-balancing strategy of the AccountManager. -/
inductive BalanceStrategy where
| roundRobin
| leastLoaded
| costOptimized
deriving DecidableEq, Repr

/-- AccountManager state: the two accounts installed by the constructor, the
strategy, and the round-robin cursor currentAccountIndex. -/
structure AMState where
  account1 : AccountState
  account2 : AccountState
  strategy : BalanceStrategy
  currentAccountIndex : Nat
deriving DecidableEq, Repr

/-- Account lookup: this.accounts.get(accountId). -/
def getAccount (st : AMState) : AccountId → AccountState
  | .account1 => st.account1
  | .account2 => st.account2

/-- Functional update of one account. -/
def setAccount (st : AMState) : AccountId → AccountState → AMState
  | .account1, a => { st with account1 := a }
  | .account2, a => { st with account2 := a }

/-- AccountManager constructor: both accounts start with zeroed stats and an
empty timestamp window. -/
def initAccount (cfg : AccountConfig) : AccountState :=
  { config := cfg, totalRequests := 0, totalTokens := 0, totalCost := 0,
    activeRequests := 0, lastUsed := 0, requestTimestamps := [] }

def AMState.init (a1 a2 : AccountConfig) (strategy : BalanceStrategy) : AMState :=
  { account1 := initAccount a1, account2 := initAccount a2,
    strategy := strategy, currentAccountIndex := 0 }

/-- AccountManager.isRateLimited, account-manager.ts lines 129-141: prune the
timestamps to those strictly inside the trailing 60000 ms window (ts >
now - 60000), store the pruned list back, and report whether the pruned count
has reached the configured rate limit. -/
def isRateLimited (a : AccountState) (now : Int) : Bool × AccountState :=
  let pruned := a.requestTimestamps.filter (fun ts => decide (now - 60000 < ts))
  (decide (a.config.rateLimit ≤ pruned.length),
   { a with requestTimestamps := pruned })

/-- List of account ids in the order of the local array of selectRoundRobin. -/
def accountsList : List AccountId := [AccountId.account1, AccountId.account2]

/-- AccountManager.selectRoundRobin, account-manager.ts lines 83-88: index the
two-element array at currentAccountIndex % 2 and post-increment the cursor.
The getD default is unreachable since the index is < 2. -/
def selectRoundRobin (st : AMState) : AccountId × AMState :=
  (accountsList.getD (st.currentAccountIndex % 2) AccountId.account1,
   { st with currentAccountIndex := st.currentAccountIndex + 1 })

/-- AccountManager.selectLeastLoaded, account-manager.ts lines 90-106: a
rate-limited account loses to a non-limited one unconditionally; otherwise the
account with the not-larger activeRequests wins (ties to account1).  Both
isRateLimited calls prune their account's window as a side effect. -/
def selectLeastLoaded (st : AMState) (now : Int) : AccountId × AMState :=
  let r1 := isRateLimited st.account1 now
  let r2 := isRateLimited st.account2 now
  let st' := { st with account1 := r1.2, account2 := r2.2 }
  if r1.1 && !r2.1 then (AccountId.account2, st')
  else if r2.1 && !r1.1 then (AccountId.account1, st')
  else if r1.2.activeRequests ≤ r2.2.activeRequests then (AccountId.account1, st')
  else (AccountId.account2, st')

/-- AccountManager.selectCostOptimized, account-manager.ts lines 108-124: same
rate-limit override, then the account with the not-larger cumulative totalCost
wins (ties to account1). -/
def selectCostOptimized (st : AMState) (now : Int) : AccountId × AMState :=
  let r1 := isRateLimited st.account1 now
  let r2 := isRateLimited st.account2 now
  let st' := { st with account1 := r1.2, account2 := r2.2 }
  if r1.1 && !r2.1 then (AccountId.account2, st')
  else if r2.1 && !r1.1 then (AccountId.account1, st')
  else if r1.2.totalCost ≤ r2.2.totalCost then (AccountId.account1, st')
  else (AccountId.account2, st')

/-- AccountManager.selectAccount, account-manager.ts lines 70-81 (the default
branch of the switch is unreachable over the strategy enum). -/
def selectAccount (st : AMState) (now : Int) : AccountId × AMState :=
  match st.strategy with
  | .roundRobin => selectRoundRobin st
  | .leastLoaded => selectLeastLoaded st now
  | .costOptimized => selectCostOptimized st now

/-- AccountManager.getClient, account-manager.ts lines 146-163: use the pinned
account id when given, otherwise selectAccount; then push the current
timestamp onto the selected account's window and bump activeRequests,
totalRequests and lastUsed. -/
def getClient (st : AMState) (pinned : Option AccountId) (now : Int) :
    AccountId × AMState :=
  let sel := match pinned with
    | some id => (id, st)
    | none => selectAccount st now
  let a := getAccount sel.2 sel.1
  let a' := { a with
    requestTimestamps := a.requestTimestamps ++ [now]
    activeRequests := a.activeRequests + 1
    totalRequests := a.totalRequests + 1
    lastUsed := now }
  (sel.1, setAccount sel.2 sel.1 a')

/-- AccountManager.completeRequest, account-manager.ts lines 168-177: clamp
the decremented in-flight counter at zero with Math.max and accumulate tokens
and cost. -/
def completeRequest (st : AMState) (id : AccountId) (tokensUsed : Nat)
    (cost : Rat) : AMState :=
  let a := getAccount st id
  setAccount st id
    { a with
      activeRequests := max 0 (a.activeRequests - 1)
      totalTokens := a.totalTokens + tokensUsed
      totalCost := a.totalCost + cost }

/-- One acquire (getClient) or release (completeRequest) call, the operations
claim C7 quantifies over. -/
inductive AMOp where
| acquire (pinned : Option AccountId) (now : Int)
| release (id : AccountId) (tokensUsed : Nat) (cost : Rat)
deriving Repr

def applyOp (st : AMState) : AMOp → AMState
  | .acquire pinned now => (getClient st pinned now).2
  | .release id tokensUsed cost => completeRequest st id tokensUsed cost

def runOps (st : AMState) (ops : List AMOp) : AMState :=
  ops.foldl applyOp st

/-- AccountManager.waitForAvailability, account-manager.ts lines 217-222,
modelled at its exit: each loop iteration calls isRateLimited on both
accounts, pruning both windows; the loop exits (leaving exactly that pruned
state) once not both accounts are rate-limited at the checked instant. -/
def waitPrune (st : AMState) (now : Int) : AMState :=
  { st with
    account1 := (isRateLimited st.account1 now).2
    account2 := (isRateLimited st.account2 now).2 }

/-- Outcome of one client.chat call as seen by its caller: a response with
optional message content and optional usage.total_tokens, or a thrown error
with its message. -/
inductive ChatOutcome where
| ok (content : Option String) (totalTokens : Option Nat)
| error (msg : String)
deriving DecidableEq, Repr

/-- SubAgent.selectModel, sub-agent.ts lines 161-172 (the default branch is
unreachable over the complexity enum). -/
def selectModel : Complexity → String
  | .simple => "grok-code-fast-1"
  | .medium => "grok-3-fast"
  | .complex => "grok-4"

/-- SubAgent.estimateCost, sub-agent.ts lines 241-251: per-thousand-token
rates per model, defaulting to 0.01. -/
def estimateCostSub (tokens : Nat) (model : String) : Rat :=
  let rate : Rat :=
    if model = "grok-code-fast-1" then 5 / 1000
    else if model = "grok-3-fast" then 8 / 1000
    else if model = "grok-4" then 15 / 1000
    else 1 / 100
  ((tokens : Rat) / 1000) * rate

/-- SuperAgent.estimateCost, super-agent.ts lines 348-351: $0.01 per 1K
tokens. -/
def estimateCostSuper (tokens : Nat) : Rat :=
  ((tokens : Rat) / 1000) * (1 / 100)

/-- SubAgent.execute, sub-agent.ts lines 48-156.  The pipeline is
waitForAvailability, then getClient (never pinned), then the guarded region:
on a chat response, content defaults to the string of no response and tokens
to 0, cost comes from estimateCost, completeRequest records actual usage and
the result is a success; on a thrown error the catch block calls
completeRequest with zero tokens and zero cost and returns the failure record
with empty result text and the error message.  The function is total into
SubAgentResult: no exception thrown inside the try region escapes (the
database notification calls are omitted as fire-and-forget).  startTime and
endNow model the two Date.now() reads around the call. -/
def subAgentExecute (st : AMState) (task : SubAgentTask) (chat : ChatOutcome)
    (startTime endNow : Int) : SubAgentResult × AMState :=
  let st1 := waitPrune st startTime
  let acq := getClient st1 none startTime
  match chat with
  | .ok content totalTokens =>
      let result := jsOrString content "No response"
      let tokensUsed := totalTokens.getD 0
      let cost := estimateCostSub tokensUsed (selectModel task.complexity)
      ({ taskId := task.id, success := true, result := result,
         tokensUsed := tokensUsed, cost := cost, account := acq.1,
         duration := endNow - startTime, error := none },
       completeRequest acq.2 acq.1 tokensUsed cost)
  | .error msg =>
      ({ taskId := task.id, success := false, result := "",
         tokensUsed := 0, cost := 0, account := acq.1,
         duration := endNow - startTime, error := some msg },
       completeRequest acq.2 acq.1 0 0)

/-- SuperAgent.executeParallel, super-agent.ts lines 223-226:
Promise.all over the per-subtask spawn keeps the input order. -/
def executeParallel (exec : SubAgentTask → SubAgentResult)
    (subTasks : List SubAgentTask) : List SubAgentResult :=
  subTasks.map exec

/-- SuperAgent.executeSequential, super-agent.ts lines 231-238: a loop that
awaits one spawn at a time and pushes the results in order. -/
def executeSequential (exec : SubAgentTask → SubAgentResult)
    (subTasks : List SubAgentTask) : List SubAgentResult :=
  subTasks.foldl (fun acc t => acc ++ [exec t]) []

/-- SuperAgent.executeAdaptive, super-agent.ts lines 243-260: filter the
simple subtasks and the rest, run the simple ones under the parallel rule,
then the rest under the sequential loop, and return the simple results
followed by the rest. -/
def executeAdaptive (exec : SubAgentTask → SubAgentResult)
    (subTasks : List SubAgentTask) : List SubAgentResult :=
  let simpleResults :=
    (subTasks.filter (fun t => decide (t.complexity = Complexity.simple))).map exec
  let complexResults :=
    (subTasks.filter (fun t => !decide (t.complexity = Complexity.simple))).foldl
      (fun acc t => acc ++ [exec t]) []
  simpleResults ++ complexResults

/-- Strategy dispatch of SuperAgent.executeTask, super-agent.ts lines 82-88
(else-branch is adaptive). -/
def executeByStrategy (strategy : ExecStrategy)
    (exec : SubAgentTask → SubAgentResult)
    (subTasks : List SubAgentTask) : List SubAgentResult :=
  match strategy with
  | .parallel => executeParallel exec subTasks
  | .sequential => executeSequential exec subTasks
  | .adaptive => executeAdaptive exec subTasks

/-- Outcome of the synthesis backend call in SuperAgent.aggregateResults. -/
inductive SynthOutcome where
| ok (content : Option String) (totalTokens : Option Nat)
| error (msg : String)
deriving DecidableEq, Repr

/-- The labelled concatenation of sub-results built by
SuperAgent.aggregateResults, super-agent.ts lines 295-305: one template block
per result, joined with a blank line. -/
def subResultsText (subResults : List SubAgentResult) : String :=
  String.intercalate "\n\n"
    (subResults.enum.map (fun p =>
      "\n### Sub-Task " ++ toString (p.1 + 1) ++
      "\n**Task:** " ++ p.2.taskId ++
      "\n**Success:** " ++ (if p.2.success then "true" else "false") ++
      "\n**Result:**\n" ++ p.2.result ++ "\n    "))

/-- SuperAgent.aggregateResults, super-agent.ts lines 288-343: on a response,
the content (defaulting when missing or empty) is returned; when the chat call
throws, the catch block returns the labelled raw concatenation instead.  The
getClient/completeRequest accounting does not affect the returned text and is
omitted here. -/
def aggregateResults (originalTask : Task) (subResults : List SubAgentResult)
    (synth : SynthOutcome) : String :=
  match synth with
  | .ok content _ => jsOrString content "Failed to aggregate results"
  | .error _ => subResultsText subResults

/-- SuperAgent.executeTask, super-agent.ts lines 61-150.  The body runs
decomposeTask, the strategy dispatch, aggregateResults, then folds tokens and
cost over the sub-results exactly as the two reduce calls do and returns a
success TaskResult.  The outer catch converts any exception escaping the body
(modelled by the unexpected message; in the source only the database
notifications and internal slips can throw, every backend failure having been
converted upstream) into a failure TaskResult with the error message as
result text and empty sub-results. -/
def executeTask (cfg : SuperAgentConfig) (fresh : Nat → String) (task : Task)
    (o : DecompOutcome) (exec : SubAgentTask → SubAgentResult)
    (synth : SynthOutcome) (unexpected : Option String)
    (startTime now : Int) : TaskResult :=
  match unexpected with
  | some msg =>
      { taskId := task.id, success := false, result := msg, subResults := [],
        tokensUsed := 0, cost := 0, duration := now - startTime }
  | none =>
      let subTasks := decomposeTask fresh task o
      let subResults := executeByStrategy cfg.strategy exec subTasks
      let finalResult := aggregateResults task subResults synth
      let totalTokens := subResults.foldl (fun s r => s + r.tokensUsed) 0
      let totalCost := subResults.foldl (fun s r => s + r.cost) 0
      { taskId := task.id, success := true, result := finalResult,
        subResults := subResults, tokensUsed := totalTokens,
        cost := totalCost, duration := now - startTime }

/-- Observable scheduling events of one sub-agent execution: the spawn
(start) and the settlement (finish) of its promise. -/
inductive AgentEvent where
| start (id : String)
| finish (id : String)
deriving DecidableEq, Repr

/-- Ids of the simple partition of executeAdaptive, in decomposition order. -/
def simpleIds (subTasks : List SubAgentTask) : List String :=
  (subTasks.filter (fun t => decide (t.complexity = Complexity.simple))).map
    SubAgentTask.id

/-- Ids of the non-simple partition of executeAdaptive, in decomposition
order. -/
def nonSimpleIds (subTasks : List SubAgentTask) : List String :=
  (subTasks.filter (fun t => !decide (t.complexity = Complexity.simple))).map
    SubAgentTask.id

/-- Event trace of the sequential loop: each task is spawned and settled
before the next is spawned. -/
def seqTrace (ids : List String) : List AgentEvent :=
  ids.flatMap (fun id => [AgentEvent.start id, AgentEvent.finish id])

/-- Event traces the parallel phase (Promise.all over the given ids) can
produce up to its resolution: every event concerns one of the ids, every id
both starts and finishes within the phase (Promise.all resolves only when all
constituent promises have settled), and no finish of an id is observed before
a start of that id. -/
def ValidParallelTrace (ids : List String) (tr : List AgentEvent) : Prop :=
  (∀ e ∈ tr, ∃ id ∈ ids, e = AgentEvent.start id ∨ e = AgentEvent.finish id)
  ∧ (∀ id ∈ ids, AgentEvent.start id ∈ tr ∧ AgentEvent.finish id ∈ tr)
  ∧ (∀ id ∈ ids, ∀ i, i < tr.length → ∀ j, j < tr.length →
      tr.getD i (AgentEvent.start "") = AgentEvent.finish id →
      tr.getD j (AgentEvent.start "") = AgentEvent.start id → j < i)

/-- Event traces executeAdaptive can produce: the await of Promise.all is a
barrier, so the whole trace is some valid parallel-phase trace over the simple
ids followed by the sequential trace over the non-simple ids. -/
def AdaptiveTrace (subTasks : List SubAgentTask) (tr : List AgentEvent) : Prop :=
  ∃ tr1, ValidParallelTrace (simpleIds subTasks) tr1
    ∧ tr = tr1 ++ seqTrace (nonSimpleIds subTasks)

/-! Helper lemmas. -/

/-- Accumulating fold of the two reduce calls in executeTask equals the sum
over the mapped field. -/
theorem foldl_add_eq_sum {M : Type} [AddCommMonoid M] (f : SubAgentResult → M)
    (l : List SubAgentResult) (init : M) :
    l.foldl (fun s r => s + f r) init = init + (l.map f).sum := by
  induction l generalizing init with
  | nil => simp
  | cons a t ih => simp [ih, add_assoc]

/-- The push-loop of executeSequential and executeAdaptive equals a map. -/
theorem foldl_push_eq_map (exec : SubAgentTask → SubAgentResult)
    (l : List SubAgentTask) (init : List SubAgentResult) :
    l.foldl (fun acc t => acc ++ [exec t]) init = init ++ l.map exec := by
  induction l generalizing init with
  | nil => simp
  | cons a t ih => simp [ih]

/-- Membership of getD at an in-range index. -/
theorem getD_mem_of_lt {α : Type} (l : List α) (d : α) (i : Nat)
    (h : i < l.length) : l.getD i d ∈ l := by
  rw [List.getD_eq_getElem l d h]
  exact List.getElem_mem h

/-! Concrete inputs used by the counterexample and witness theorems. -/

def cTask : Task :=
  { id := "t1", description := "summarize module X and list risks",
    context := none, complexity := Complexity.medium, priority := 3 }

def cRaw : RawSubtask :=
  { description := "one part", priority := some 2,
    estimatedComplexity := some Complexity.simple }

def cConfig : SuperAgentConfig :=
  { maxSubAgents := 5, strategy := ExecStrategy.adaptive, saveHistory := true }

def cFresh : Nat → String := fun n => toString n

/-! Claim theorems. -/

/-- C1: the claim says decompose returns at most config.maxSubAgents subtasks
and ignores excess entries.  The code has no such bound: decomposeTask maps
every entry of the parsed array to a subtask, so a decomposition response
with six entries yields six subtasks under the configured bound of five.
The first conjunct shows the returned length always equals the response
length; the rest evaluates the code at the failing input against the config
whose maxSubAgents is five. -/
theorem decomposeTask_ignores_maxSubAgents :
    (∀ (fresh : Nat → String) (task : Task) (entries : List RawSubtask),
      (decomposeTask fresh task (DecompOutcome.entries entries)).length =
        entries.length)
    ∧ cConfig.maxSubAgents = 5
    ∧ (decomposeTask cFresh cTask
        (DecompOutcome.entries [cRaw, cRaw, cRaw, cRaw, cRaw, cRaw])).length = 6 := by
  refine ⟨?_, rfl, rfl⟩
  intro fresh task entries
  simp [decomposeTask]

/-- C2 counterexample: a decomposition response that parses to the empty
array (in particular, a response with missing content, which the source
defaults to the string of an empty array before parsing) makes decompose
return zero subtasks, not the single fallback subtask the claim requires. -/
theorem decompose_emptyArray_counterexample :
    decomposeTask cFresh cTask (DecompOutcome.entries []) = []
    ∧ (decomposeTask cFresh cTask (DecompOutcome.entries [])).length ≠ 1 := by
  exact ⟨rfl, by decide⟩

/-- C2 amended: when the decomposition backend call throws, or its content is
not parsable as JSON, or parses to a value that is not an array, decompose
returns exactly one subtask copying the task's description and complexity
with priority 1; a response parsing to an empty array instead yields an
empty subtask list. -/
theorem decomposeTask_fallback (fresh : Nat → String) (task : Task)
    (o : DecompOutcome)
    (h : o = DecompOutcome.backendError ∨ o = DecompOutcome.unparsable ∨
         o = DecompOutcome.nonArray) :
    decomposeTask fresh task o =
      [{ id := fresh 0, description := task.description, priority := 1,
         parentTaskId := task.id, complexity := task.complexity,
         context := none }]
    ∧ decomposeTask fresh task (DecompOutcome.entries []) = [] := by
  rcases h with h | h | h <;> subst h <;> exact ⟨rfl, rfl⟩

/-- C2 witness: the amended theorem applied at a concrete task and the
backend-error outcome. -/
theorem decomposeTask_fallback_witness :
    decomposeTask cFresh cTask DecompOutcome.backendError =
      [{ id := cFresh 0, description := cTask.description, priority := 1,
         parentTaskId := cTask.id, complexity := cTask.complexity,
         context := none }]
    ∧ decomposeTask cFresh cTask (DecompOutcome.entries []) = [] :=
  decomposeTask_fallback cFresh cTask DecompOutcome.backendError (Or.inl rfl)

/-- C3: whenever executeTask returns (both on the success path and out of the
outer catch), the TaskResult's tokensUsed is the sum of tokensUsed over its
subResults and its cost is the sum of cost over its subResults. -/
theorem executeTask_accounting (cfg : SuperAgentConfig) (fresh : Nat → String)
    (task : Task) (o : DecompOutcome) (exec : SubAgentTask → SubAgentResult)
    (synth : SynthOutcome) (unexpected : Option String) (startTime now : Int) :
    (executeTask cfg fresh task o exec synth unexpected startTime now).tokensUsed =
      ((executeTask cfg fresh task o exec synth unexpected startTime now).subResults.map
        SubAgentResult.tokensUsed).sum
    ∧ (executeTask cfg fresh task o exec synth unexpected startTime now).cost =
      ((executeTask cfg fresh task o exec synth unexpected startTime now).subResults.map
        SubAgentResult.cost).sum := by
  cases unexpected with
  | none => simp [executeTask, foldl_add_eq_sum]
  | some msg => simp [executeTask]

/-- C5: executeTask always returns a TaskResult.  When an exception with a
given message escapes the pipeline, the outer catch converts it into a
failure TaskResult carrying the message as result text; when nothing escapes,
the result is a success, for every executor, in particular one whose
WorkerResults all have success = false. -/
theorem executeTask_never_throws (cfg : SuperAgentConfig) (fresh : Nat → String)
    (task : Task) (o : DecompOutcome) (exec : SubAgentTask → SubAgentResult)
    (synth : SynthOutcome) (startTime now : Int) (msg : String) :
    (executeTask cfg fresh task o exec synth (some msg) startTime now).success = false
    ∧ (executeTask cfg fresh task o exec synth (some msg) startTime now).result = msg
    ∧ (executeTask cfg fresh task o exec synth none startTime now).success = true :=
  ⟨rfl, rfl, rfl⟩

/-- C9: when the synthesis backend call throws, aggregateResults returns the
labelled concatenation of the raw sub-result texts, and executeTask still
returns a success TaskResult, so synthesis failure is never fatal. -/
theorem synthesis_fallback (originalTask task : Task)
    (subResults : List SubAgentResult) (cfg : SuperAgentConfig)
    (fresh : Nat → String) (o : DecompOutcome)
    (exec : SubAgentTask → SubAgentResult) (startTime now : Int) (msg : String) :
    aggregateResults originalTask subResults (SynthOutcome.error msg) =
      subResultsText subResults
    ∧ (executeTask cfg fresh task o exec (SynthOutcome.error msg) none
        startTime now).success = true :=
  ⟨rfl, rfl⟩

/-- C4: on a failed backend call the worker's catch block releases the
acquired account with zero tokens and zero cost and returns the failure
record: success false, empty result text, zero usage, populated error.  The
totality of subAgentExecute into SubAgentResult embeds that no exception
escapes the try region.  The hypothesis states that the availability loop
exits at the acquisition instant (not both accounts rate-limited). -/
theorem subAgentExecute_failure_path (st : AMState) (task : SubAgentTask)
    (startTime endNow : Int) (msg : String)
    (h : (isRateLimited st.account1 startTime).1 = false ∨
         (isRateLimited st.account2 startTime).1 = false) :
    ((subAgentExecute st task (ChatOutcome.error msg) startTime endNow).1.success = false)
    ∧ ((subAgentExecute st task (ChatOutcome.error msg) startTime endNow).1.result = "")
    ∧ ((subAgentExecute st task (ChatOutcome.error msg) startTime endNow).1.tokensUsed = 0)
    ∧ ((subAgentExecute st task (ChatOutcome.error msg) startTime endNow).1.cost = 0)
    ∧ ((subAgentExecute st task (ChatOutcome.error msg) startTime endNow).1.error = some msg)
    ∧ ((subAgentExecute st task (ChatOutcome.error msg) startTime endNow).1.account =
        (getClient (waitPrune st startTime) none startTime).1)
    ∧ ((subAgentExecute st task (ChatOutcome.error msg) startTime endNow).2 =
        completeRequest (getClient (waitPrune st startTime) none startTime).2
          (getClient (waitPrune st startTime) none startTime).1 0 0) :=
  ⟨rfl, rfl, rfl, rfl, rfl, rfl, rfl⟩

def wCfg1 : AccountConfig :=
  { apiKey := "k1", baseURL := none, name := "Primary",
    maxConcurrent := 10, rateLimit := 60 }

def wCfg2 : AccountConfig :=
  { apiKey := "k2", baseURL := none, name := "Secondary",
    maxConcurrent := 10, rateLimit := 60 }

def wAM : AMState := AMState.init wCfg1 wCfg2 BalanceStrategy.leastLoaded

def wTask : SubAgentTask :=
  { id := "s1", description := "one part", priority := 1,
    parentTaskId := "t1", complexity := Complexity.medium, context := none }

/-- C4 witness: the failure-path theorem applied to the freshly initialized
account manager, whose accounts are not rate-limited. -/
theorem subAgentExecute_failure_path_witness :
    ((subAgentExecute wAM wTask (ChatOutcome.error "boom") 0 5).1.success = false)
    ∧ ((subAgentExecute wAM wTask (ChatOutcome.error "boom") 0 5).1.result = "")
    ∧ ((subAgentExecute wAM wTask (ChatOutcome.error "boom") 0 5).1.tokensUsed = 0)
    ∧ ((subAgentExecute wAM wTask (ChatOutcome.error "boom") 0 5).1.cost = 0)
    ∧ ((subAgentExecute wAM wTask (ChatOutcome.error "boom") 0 5).1.error = some "boom")
    ∧ ((subAgentExecute wAM wTask (ChatOutcome.error "boom") 0 5).1.account =
        (getClient (waitPrune wAM 0) none 0).1)
    ∧ ((subAgentExecute wAM wTask (ChatOutcome.error "boom") 0 5).2 =
        completeRequest (getClient (waitPrune wAM 0) none 0).2
          (getClient (waitPrune wAM 0) none 0).1 0 0) :=
  subAgentExecute_failure_path wAM wTask 0 5 "boom" (Or.inl (by decide))

/-- C6: isRateLimited is true exactly when the count of timestamps strictly
inside the trailing 60-second window reaches the configured limit, the check
stores back exactly the pruned window, and when exactly one account is
rate-limited the least-loaded and cost-optimized selectors return the
non-limited account, whatever the load and cost counters say. -/
theorem rateLimit_and_selection (a : AccountState) (st : AMState) (now : Int)
    (hstrat : st.strategy = BalanceStrategy.leastLoaded ∨
              st.strategy = BalanceStrategy.costOptimized)
    (hone : (isRateLimited st.account1 now).1 ≠ (isRateLimited st.account2 now).1) :
    ((isRateLimited a now).1 = true ↔
      a.config.rateLimit ≤
        (a.requestTimestamps.filter (fun ts => decide (now - 60000 < ts))).length)
    ∧ (isRateLimited a now).2.requestTimestamps =
        a.requestTimestamps.filter (fun ts => decide (now - 60000 < ts))
    ∧ (selectAccount st now).1 =
        (if (isRateLimited st.account1 now).1 then AccountId.account2
         else AccountId.account1) := by
  refine ⟨by simp [isRateLimited], rfl, ?_⟩
  rcases hstrat with hs | hs <;>
    cases h1 : (isRateLimited st.account1 now).1 <;>
    cases h2 : (isRateLimited st.account2 now).1 <;>
    simp_all [selectAccount, selectLeastLoaded, selectCostOptimized]

def wStLL : AMState :=
  AMState.init
    { apiKey := "k1", baseURL := none, name := "Primary",
      maxConcurrent := 10, rateLimit := 0 }
    { apiKey := "k2", baseURL := none, name := "Secondary",
      maxConcurrent := 10, rateLimit := 60 }
    BalanceStrategy.leastLoaded

/-- C6 witness: a least-loaded manager whose first account is rate-limited
(limit 0 is already reached by the empty window) and whose second is not. -/
theorem rateLimit_and_selection_witness :
    ((isRateLimited wStLL.account1 0).1 = true ↔
      wStLL.account1.config.rateLimit ≤
        (wStLL.account1.requestTimestamps.filter
          (fun ts => decide ((0 : Int) - 60000 < ts))).length)
    ∧ (isRateLimited wStLL.account1 0).2.requestTimestamps =
        wStLL.account1.requestTimestamps.filter
          (fun ts => decide ((0 : Int) - 60000 < ts))
    ∧ (selectAccount wStLL 0).1 =
        (if (isRateLimited wStLL.account1 0).1 then AccountId.account2
         else AccountId.account1) :=
  rateLimit_and_selection wStLL.account1 wStLL 0 (Or.inl rfl) (by decide)

/-- Selection never touches the in-flight counters: each selector only prunes
timestamp windows or advances the round-robin cursor. -/
theorem selectAccount_activeRequests (st : AMState) (now : Int) :
    (selectAccount st now).2.account1.activeRequests = st.account1.activeRequests
    ∧ (selectAccount st now).2.account2.activeRequests = st.account2.activeRequests := by
  cases hstrat : st.strategy
  · simp [selectAccount, hstrat, selectRoundRobin]
  · simp only [selectAccount, hstrat, selectLeastLoaded, isRateLimited]
    split_ifs <;> simp
  · simp only [selectAccount, hstrat, selectCostOptimized, isRateLimited]
    split_ifs <;> simp

/-- Acquisition preserves non-negativity of both in-flight counters. -/
theorem getClient_nonneg (st : AMState) (pinned : Option AccountId) (now : Int)
    (h1 : 0 ≤ st.account1.activeRequests) (h2 : 0 ≤ st.account2.activeRequests) :
    0 ≤ (getClient st pinned now).2.account1.activeRequests
    ∧ 0 ≤ (getClient st pinned now).2.account2.activeRequests := by
  cases pinned with
  | some id =>
      cases id <;> simp [getClient, getAccount, setAccount] <;> omega
  | none =>
      obtain ⟨ha, hb⟩ := selectAccount_activeRequests st now
      rcases hs : selectAccount st now with ⟨sid, st'⟩
      rw [hs] at ha hb
      dsimp only at ha hb
      cases sid <;> simp [getClient, hs, getAccount, setAccount] <;> omega

/-- Every acquire or release preserves non-negativity of both in-flight
counters. -/
theorem applyOp_nonneg (st : AMState) (op : AMOp)
    (h1 : 0 ≤ st.account1.activeRequests) (h2 : 0 ≤ st.account2.activeRequests) :
    0 ≤ (applyOp st op).account1.activeRequests
    ∧ 0 ≤ (applyOp st op).account2.activeRequests := by
  cases op with
  | acquire pinned now => exact getClient_nonneg st pinned now h1 h2
  | release id t c =>
      cases id <;> simp [applyOp, completeRequest, getAccount, setAccount] <;>
        assumption

/-- Non-negativity is preserved along any operation sequence. -/
theorem runOps_nonneg (st : AMState) (ops : List AMOp)
    (h1 : 0 ≤ st.account1.activeRequests) (h2 : 0 ≤ st.account2.activeRequests) :
    0 ≤ (runOps st ops).account1.activeRequests
    ∧ 0 ≤ (runOps st ops).account2.activeRequests := by
  induction ops generalizing st with
  | nil => exact ⟨h1, h2⟩
  | cons op t ih =>
      have h := applyOp_nonneg st op h1 h2
      simpa [runOps, List.foldl] using ih (applyOp st op) h.1 h.2

/-- C7: starting from the constructor state, every sequence of acquire
(getClient) and release (completeRequest) operations leaves every account's
in-flight counter non-negative, and completeRequest decrements the counter
clamped at zero while adding the given tokens and cost to the cumulative
totals. -/
theorem inflight_nonneg_and_release (a1 a2 : AccountConfig)
    (strat : BalanceStrategy) :
    (∀ (ops : List AMOp) (id : AccountId),
      0 ≤ (getAccount (runOps (AMState.init a1 a2 strat) ops) id).activeRequests)
    ∧ (∀ (st : AMState) (id : AccountId) (t : Nat) (c : Rat),
        (getAccount (completeRequest st id t c) id).activeRequests =
          max 0 ((getAccount st id).activeRequests - 1)
        ∧ (getAccount (completeRequest st id t c) id).totalTokens =
            (getAccount st id).totalTokens + t
        ∧ (getAccount (completeRequest st id t c) id).totalCost =
            (getAccount st id).totalCost + c) := by
  constructor
  · intro ops id
    have h := runOps_nonneg (AMState.init a1 a2 strat) ops
      (by simp [AMState.init, initAccount]) (by simp [AMState.init, initAccount])
    cases id
    · exact h.1
    · exact h.2
  · intro st id t c
    cases id <;> simp [completeRequest, getAccount, setAccount]

/-- Iterated selection: the state after n selectBackend calls. -/
def selectIter (st : AMState) (now : Int) : Nat → AMState
  | 0 => st
  | n + 1 => (selectAccount (selectIter st now n) now).2

/-- Under round-robin, iterated selection keeps the strategy and advances the
cursor by one per call. -/
theorem selectIter_roundRobin (st : AMState) (now : Int)
    (hs : st.strategy = BalanceStrategy.roundRobin) (n : Nat) :
    (selectIter st now n).strategy = BalanceStrategy.roundRobin
    ∧ (selectIter st now n).currentAccountIndex = st.currentAccountIndex + n := by
  induction n with
  | zero => exact ⟨hs, rfl⟩
  | succ k ih =>
      obtain ⟨hstrat, hidx⟩ := ih
      refine ⟨?_, ?_⟩
      · simp [selectIter, selectAccount, hstrat, selectRoundRobin]
      · simp [selectIter, selectAccount, hstrat, selectRoundRobin, hidx]
        omega

/-- C8: under the round-robin policy, starting from cursor zero, the nth
selectBackend call (counting from zero) returns the account at position
n mod 2 of the configured account list, whatever the load, rate-limit and
cost counters hold. -/
theorem roundRobin_cycle (st : AMState) (now : Int) (n : Nat)
    (hs : st.strategy = BalanceStrategy.roundRobin)
    (h0 : st.currentAccountIndex = 0) :
    (selectAccount (selectIter st now n) now).1 =
      accountsList.getD (n % 2) AccountId.account1 := by
  obtain ⟨hstrat, hidx⟩ := selectIter_roundRobin st now hs n
  rw [h0] at hidx
  simp [selectAccount, hstrat, selectRoundRobin, hidx]

def wStRR : AMState := AMState.init wCfg1 wCfg2 BalanceStrategy.roundRobin

/-- C8 witness: the fourth call (n = 3) of a round-robin manager returns the
account at position 3 mod 2. -/
theorem roundRobin_cycle_witness :
    (selectAccount (selectIter wStRR 0 3) 0).1 =
      accountsList.getD (3 % 2) AccountId.account1 :=
  roundRobin_cycle wStRR 0 3 rfl rfl

/-- Events of the sequential trace all concern the listed ids. -/
theorem mem_seqTrace (ids : List String) (e : AgentEvent) :
    e ∈ seqTrace ids ↔
      ∃ id ∈ ids, e = AgentEvent.start id ∨ e = AgentEvent.finish id := by
  simp [seqTrace]

/-- Membership in the simple partition's id list. -/
theorem mem_simpleIds {subTasks : List SubAgentTask} {x : String} :
    x ∈ simpleIds subTasks ↔
      ∃ t ∈ subTasks, t.complexity = Complexity.simple ∧ t.id = x := by
  simp only [simpleIds, List.mem_map, List.mem_filter, decide_eq_true_eq]
  tauto

/-- Membership in the non-simple partition's id list. -/
theorem mem_nonSimpleIds {subTasks : List SubAgentTask} {x : String} :
    x ∈ nonSimpleIds subTasks ↔
      ∃ t ∈ subTasks, ¬t.complexity = Complexity.simple ∧ t.id = x := by
  simp only [nonSimpleIds, List.mem_map, List.mem_filter, Bool.not_eq_true',
    decide_eq_false_iff_not]
  tauto

/-- C10: under the adaptive strategy, for every trace the two phases of
executeAdaptive can produce, every settlement of a simple subtask precedes
every spawn of a non-simple subtask (the await of Promise.all is a barrier
before the sequential loop), and the returned result list is the simple
partition's results in decomposition order followed by the non-simple
partition's results in decomposition order. -/
theorem adaptive_barrier_and_order (subTasks : List SubAgentTask)
    (tr : List AgentEvent) (exec : SubAgentTask → SubAgentResult)
    (hn : (subTasks.map SubAgentTask.id).Nodup)
    (ht : AdaptiveTrace subTasks tr)
    (s c : SubAgentTask) (hs : s ∈ subTasks)
    (hsc : s.complexity = Complexity.simple)
    (hc : c ∈ subTasks) (hcc : c.complexity ≠ Complexity.simple) :
    (∀ i, i < tr.length → ∀ j, j < tr.length →
      tr.getD i (AgentEvent.start "") = AgentEvent.finish s.id →
      tr.getD j (AgentEvent.start "") = AgentEvent.start c.id → i < j)
    ∧ executeAdaptive exec subTasks =
        (subTasks.filter (fun t => decide (t.complexity = Complexity.simple))).map exec
        ++ (subTasks.filter (fun t => !decide (t.complexity = Complexity.simple))).map exec := by
  obtain ⟨tr1, hval, heq⟩ := ht
  have hinj := List.inj_on_of_nodup_map hn
  have hfin_not_seq : AgentEvent.finish s.id ∉ seqTrace (nonSimpleIds subTasks) := by
    intro hmem
    obtain ⟨id, hid, hcase⟩ := (mem_seqTrace _ _).1 hmem
    have hid_eq : id = s.id := by
      rcases hcase with h | h
      · exact absurd h (by simp)
      · injection h with h; exact h.symm
    subst hid_eq
    obtain ⟨t, htmem, htc, hteq⟩ := mem_nonSimpleIds.1 hid
    have := hinj htmem hs hteq
    subst this
    exact htc hsc
  have hstart_not_par : AgentEvent.start c.id ∉ tr1 := by
    intro hmem
    obtain ⟨id, hid, hcase⟩ := hval.1 _ hmem
    have hid_eq : id = c.id := by
      rcases hcase with h | h
      · injection h with h; exact h.symm
      · exact absurd h (by simp)
    subst hid_eq
    obtain ⟨t, htmem, htc, hteq⟩ := mem_simpleIds.1 hid
    have := hinj htmem hc hteq
    subst this
    exact hcc htc
  constructor
  · intro i hi j hj hfin hstart
    have hi1 : i < tr1.length := by
      by_contra hle
      push_neg at hle
      have hgd : tr.getD i (AgentEvent.start "") =
          (seqTrace (nonSimpleIds subTasks)).getD (i - tr1.length)
            (AgentEvent.start "") := by
        rw [heq]; exact List.getD_append_right _ _ _ _ hle
      have hlt : i - tr1.length < (seqTrace (nonSimpleIds subTasks)).length := by
        rw [heq, List.length_append] at hi
        omega
      have hmem := getD_mem_of_lt (seqTrace (nonSimpleIds subTasks))
        (AgentEvent.start "") (i - tr1.length) hlt
      rw [← hgd, hfin] at hmem
      exact hfin_not_seq hmem
    have hj1 : tr1.length ≤ j := by
      by_contra hlt
      push_neg at hlt
      have hgd : tr.getD j (AgentEvent.start "") =
          tr1.getD j (AgentEvent.start "") := by
        rw [heq]; exact List.getD_append _ _ _ _ hlt
      have hmem := getD_mem_of_lt tr1 (AgentEvent.start "") j hlt
      rw [← hgd, hstart] at hmem
      exact hstart_not_par hmem
    omega
  · simp [executeAdaptive, foldl_push_eq_map]

def wSimpleTask : SubAgentTask :=
  { id := "a", description := "easy part", priority := 1,
    parentTaskId := "t1", complexity := Complexity.simple, context := none }

def wComplexTask : SubAgentTask :=
  { id := "b", description := "hard part", priority := 2,
    parentTaskId := "t1", complexity := Complexity.complex, context := none }

def wSubTasks : List SubAgentTask := [wSimpleTask, wComplexTask]

def wTrace : List AgentEvent :=
  [AgentEvent.start "a", AgentEvent.finish "a",
   AgentEvent.start "b", AgentEvent.finish "b"]

def wExec : SubAgentTask → SubAgentResult := fun t =>
  { taskId := t.id, success := true, result := "done", tokensUsed := 10,
    cost := 1 / 10, account := AccountId.account1, duration := 1,
    error := none }

/-- C10 witness: a simple and a complex subtask with the canonical trace in
which the simple one starts and finishes before the complex one starts. -/
theorem adaptive_barrier_and_order_witness :
    (∀ i, i < wTrace.length → ∀ j, j < wTrace.length →
      wTrace.getD i (AgentEvent.start "") = AgentEvent.finish wSimpleTask.id →
      wTrace.getD j (AgentEvent.start "") = AgentEvent.start wComplexTask.id →
      i < j)
    ∧ executeAdaptive wExec wSubTasks =
        (wSubTasks.filter (fun t => decide (t.complexity = Complexity.simple))).map wExec
        ++ (wSubTasks.filter (fun t => !decide (t.complexity = Complexity.simple))).map wExec :=
  adaptive_barrier_and_order wSubTasks wTrace wExec (by decide)
    ⟨[AgentEvent.start "a", AgentEvent.finish "a"],
      by unfold ValidParallelTrace; decide, rfl⟩
    wSimpleTask wComplexTask (by decide) rfl (by decide) (by decide)

end SuperGrok
